import Mathlib

/-!
Verification of the item-registry behavior of `src/main.py`.

The file embeds, as executable Lean definitions:
  * the `Item` pydantic model (line 159) with its five fields,
  * the module-level registry `items` (line 172), modelled as the field of an
    explicit `AppState` threaded through the endpoint functions,
  * `create_item` (line 176): sets `total_price := price + tax` when `tax` is
    set, appends the record, returns the confirmation string,
  * the full listing endpoint `read_items` at line 205 (`read_items_full`),
  * the windowed listing endpoint `read_items` at line 104 (`read_items_window`),
    including faithful Python slice semantics for `fake_db[start : start + limit]`
    (negative indices count from the end, out-of-range indices are clamped),
  * the response-model projection used by `namePrice` (line 248) and
    `itemsMinusDescription` (line 257): serialize each record to a key/value
    list, keep only keys of the include set, drop keys of the exclude set, and
    when `exclude_none` is on drop keys whose value is null.

Numeric fields are modelled with `ℚ`; the only arithmetic performed by the
program is the single addition `price + tax`.
-/

namespace FastapiMain

/-- One record of the fixed demonstration collection `fake_db` (line 101). -/
structure FakeRecord where
  item_id : Int
  name : String
deriving DecidableEq, Repr

/-- `fake_db` from line 101 of `src/main.py`. -/
def fake_db : List FakeRecord :=
  [⟨1, "item1"⟩, ⟨2, "item2"⟩, ⟨3, "item3"⟩]

/-- Python sequence slicing `l[i : j]` (step 1): a negative index counts from
the end of the list, and both bounds are clamped into `[0, length]`. -/
def pySlice {α : Type} (l : List α) (i j : Int) : List α :=
  let n : Int := l.length
  let lo : Nat := if i < 0 then (n + i).toNat else min i.toNat l.length
  let hi : Nat := if j < 0 then (n + j).toNat else min j.toNat l.length
  (l.drop lo).take (hi - lo)

/-- The `Item` pydantic model (lines 159-164): required `name` and `price`,
optional `description`, `tax` and `total_price`, all defaulting to null. -/
structure Item where
  name : String
  description : Option String
  price : ℚ
  tax : Option ℚ
  total_price : Option ℚ
deriving DecidableEq, Repr

/-- The mutable module state: the registry `items : list[Item]` of line 172. -/
structure AppState where
  items : List Item
deriving DecidableEq, Repr

/-- The state at process start: `items = []`. -/
def initialState : AppState := ⟨[]⟩

/-- The mutation `create_item` performs on its argument before appending
(lines 177-178): if `tax` is set, overwrite `total_price` with `price + tax`. -/
def processItem (item : Item) : Item :=
  match item.tax with
  | some t => ⟨item.name, item.description, item.price, item.tax, some (item.price + t)⟩
  | none => item

/-- `create_item` (lines 176-181): update `total_price` when `tax` is set,
append the record to `items`, return the confirmation string. -/
def create_item (item : Item) (st : AppState) : AppState × String :=
  (⟨st.items ++ [processItem item]⟩, "successfully added a new item")

/-- Run a sequence of `create_item` requests against a state. -/
def runCreates (cands : List Item) (st : AppState) : AppState :=
  cands.foldl (fun s c => (create_item c s).1) st

/-- The windowed listing endpoint `read_items` of line 104:
`return fake_db[start : start + limit]`, no state change. -/
def read_items_window (st : AppState) (start limit : Int) : AppState × List FakeRecord :=
  (st, pySlice fake_db start (start + limit))

/-- The full listing endpoint `read_items` of line 205: `return items`. -/
def read_items_full (st : AppState) : AppState × List Item :=
  (st, st.items)

/-- A serialized JSON field value: string, number or null. -/
inductive JVal where
  | s (v : String)
  | n (v : ℚ)
  | null
deriving DecidableEq, Repr

/-- Serialize an optional string field. -/
def optStr : Option String → JVal
  | some v => .s v
  | none => .null

/-- Serialize an optional numeric field. -/
def optNum : Option ℚ → JVal
  | some v => .n v
  | none => .null

/-- The serialized fields of an `Item`, in pydantic declaration order. -/
def itemFields (it : Item) : List (String × JVal) :=
  [("name", .s it.name),
   ("description", optStr it.description),
   ("price", .n it.price),
   ("tax", optNum it.tax),
   ("total_price", optNum it.total_price)]

/-- The response-model field filter: a field is kept when it belongs to the
include set (if one is given), is not in the exclude set, and is not a null
value while `exclude_none` is on. -/
def keepField (inc : Option (List String)) (exc : List String) (dropNone : Bool)
    (f : String × JVal) : Bool :=
  (match inc with
   | some l => decide (f.1 ∈ l)
   | none => true)
  && !(decide (f.1 ∈ exc))
  && !(dropNone && decide (f.2 = JVal.null))

/-- Serialize one `Item` under a response-model policy. -/
def serializeItem (inc : Option (List String)) (exc : List String) (dropNone : Bool)
    (it : Item) : List (String × JVal) :=
  (itemFields it).filter (keepField inc exc dropNone)

/-- A projection endpoint on the registry: the policy is applied to every
record of `items` independently, the state is returned unchanged. -/
def list_projected (inc : Option (List String)) (exc : List String) (dropNone : Bool)
    (st : AppState) : AppState × List (List (String × JVal)) :=
  (st, st.items.map (serializeItem inc exc dropNone))

/-- The `namePrice` endpoint (lines 247-249): include only `price` and
`name` in every output record. -/
def namePrice (st : AppState) : AppState × List (List (String × JVal)) :=
  list_projected (some ["price", "name"]) [] false st

/-- The `itemsMinusDescription` endpoint (lines 251-258): exclude
`description` from every output record and drop null-valued fields. -/
def itemsMinusDescription (st : AppState) : AppState × List (List (String × JVal)) :=
  list_projected none ["description"] true st

/-- For nonnegative bounds, a Python slice is a drop followed by a take. -/
lemma pySlice_nonneg {α : Type} (l : List α) (i j : Int) (hi : 0 ≤ i) (hij : i ≤ j) :
    pySlice l i j = (l.drop i.toNat).take (j.toNat - i.toNat) := by
  have h1 : ¬ i < 0 := by omega
  have h2 : ¬ j < 0 := by omega
  simp only [pySlice, h1, h2, if_false]
  rcases le_or_lt l.length i.toNat with h | h
  · rw [min_eq_right h, List.drop_length, List.drop_eq_nil_of_le h]
    simp
  · rw [min_eq_left h.le]
    apply List.take_eq_take.mpr
    rw [List.length_drop]
    omega

/-- Any element of a Python slice of `l` is an element of `l`. -/
lemma mem_of_mem_pySlice {α : Type} {l : List α} {i j : Int} {x : α}
    (hx : x ∈ pySlice l i j) : x ∈ l :=
  List.mem_of_mem_drop (List.mem_of_mem_take hx)

/-- C5 (amended): for every nonnegative `start` and `limit`, `read_items_window`
returns the contiguous sub-sequence of `fake_db` beginning at offset `start` of
length at most `limit`; if `start ≥ length` the result is empty; out-of-range
values are clamped with no error; on the 3-record sample, `(0, 10)` returns all
3 records and `(5, 10)` returns the empty sequence. -/
theorem window_clamped_nonneg (st : AppState) (start limit : Int)
    (hs : 0 ≤ start) (hl : 0 ≤ limit) :
    (read_items_window st start limit).2 = (fake_db.drop start.toNat).take limit.toNat ∧
    (read_items_window st start limit).2.length ≤ limit.toNat ∧
    ((fake_db.length : Int) ≤ start → (read_items_window st start limit).2 = []) ∧
    (read_items_window st 0 10).2 = fake_db ∧
    (read_items_window st 5 10).2 = [] := by
  have key : (read_items_window st start limit).2
      = (fake_db.drop start.toNat).take limit.toNat := by
    show pySlice fake_db start (start + limit)
        = (fake_db.drop start.toNat).take limit.toNat
    rw [pySlice_nonneg fake_db start (start + limit) hs (by omega)]
    congr 1
    omega
  refine ⟨key, ?_, ?_, ?_, ?_⟩
  · rw [key]
    exact (List.length_take _ _).le.trans (min_le_left _ _)
  · intro hge
    rw [key, List.drop_eq_nil_of_le (by omega), List.take_nil]
  · show pySlice fake_db 0 (0 + 10) = fake_db
    decide
  · show pySlice fake_db 5 (5 + 10) = []
    decide

/-- Witness for `window_clamped_nonneg` at `start = 0`, `limit = 10`. -/
theorem window_clamped_nonneg_witness :
    (read_items_window initialState 0 10).2 = fake_db ∧
    (read_items_window initialState 5 10).2 = [] :=
  ⟨(window_clamped_nonneg initialState 0 10 (by decide) (by decide)).2.2.2.1,
   (window_clamped_nonneg initialState 5 10 (by decide) (by decide)).2.2.2.2⟩

/-- C5 (counterexample): at `start = 0`, `limit = -1`, the code returns the
first two sample records — a sequence of length 2, not a sequence of length at
most `limit` — because Python slicing treats a negative bound as counting from
the end instead of clamping it. -/
theorem window_negative_limit_counterexample :
    (read_items_window initialState 0 (-1)).2 = [⟨1, "item1"⟩, ⟨2, "item2"⟩] ∧
    ¬ (((read_items_window initialState 0 (-1)).2.length : Int) ≤ -1) := by
  constructor
  · decide
  · decide

/-- C7: the windowed listing reads the fixed demonstration collection, not the
registry: its result is unchanged by any sequence of appends, and every record
it returns is a record of `fake_db` (which holds no `Item` at all). -/
theorem window_frame_separate_db (st : AppState) (cands : List Item) (start limit : Int) :
    (read_items_window (runCreates cands st) start limit).2
      = (read_items_window st start limit).2 ∧
    (∀ r, r ∈ (read_items_window st start limit).2 → r ∈ fake_db) := by
  refine ⟨rfl, ?_⟩
  intro r hr
  exact mem_of_mem_pySlice hr

/-- Witness for `window_frame_separate_db`: one append, window `(0, 10)`. -/
theorem window_frame_separate_db_witness :
    (read_items_window (runCreates [⟨"w", none, 1, none, none⟩] initialState) 0 10).2
      = (read_items_window initialState 0 10).2 ∧
    (⟨1, "item1"⟩ : FakeRecord) ∈ fake_db :=
  ⟨(window_frame_separate_db initialState [⟨"w", none, 1, none, none⟩] 0 10).1,
   (window_frame_separate_db initialState [⟨"w", none, 1, none, none⟩] 0 10).2
     ⟨1, "item1"⟩ (by decide)⟩

/-- The per-record invariant of the registry: a set `tax` forces
`total_price = price + tax`, an unset `tax` forces an unset `total_price`. -/
def itemInv (r : Item) : Prop :=
  (∀ t, r.tax = some t → r.total_price = some (r.price + t)) ∧
  (r.tax = none → r.total_price = none)

lemma itemInv_processItem {c : Item} (hc : c.total_price = none) :
    itemInv (processItem c) := by
  cases ht : c.tax with
  | none => exact ⟨fun t h => by simp [processItem, ht] at h, fun _ => by simp [processItem, ht, hc]⟩
  | some t =>
      constructor
      · intro u hu
        simp [processItem, ht] at hu ⊢
        rw [hu]
      · intro h
        simp [processItem, ht] at h

lemma runCreates_cons (c : Item) (cs : List Item) (st : AppState) :
    runCreates (c :: cs) st = runCreates cs (create_item c st).1 := rfl

lemma runCreates_inv (cands : List Item) (st : AppState)
    (hst : ∀ r ∈ st.items, itemInv r) (h : ∀ c ∈ cands, c.total_price = none) :
    ∀ r ∈ (runCreates cands st).items, itemInv r := by
  induction cands generalizing st with
  | nil => exact hst
  | cons c cs ih =>
      rw [runCreates_cons]
      apply ih
      · intro r hr
        simp only [create_item, List.mem_append, List.mem_singleton] at hr
        rcases hr with hr | hr
        · exact hst r hr
        · rw [hr]
          exact itemInv_processItem (h c (List.mem_cons_self c cs))
      · intro x hx
        exact h x (List.mem_cons_of_mem c hx)

/-- C1 (amended): in a registry built by appending candidates whose
`total_price` is unset at submission, every stored record satisfies the
invariant — if `tax` is set then `total_price = price + tax`, and if `tax` is
unset then `total_price` is unset; in particular a `(name, price)` candidate
with `tax` unset is stored with `total_price` unset. -/
theorem registry_invariant_of_unset_total_price (cands : List Item)
    (h : ∀ c ∈ cands, c.total_price = none)
    (r : Item) (hr : r ∈ (runCreates cands initialState).items) :
    (∀ t, r.tax = some t → r.total_price = some (r.price + t)) ∧
    (r.tax = none → r.total_price = none) :=
  runCreates_inv cands initialState (by intro x hx; simp [initialState] at hx) h r hr

/-- Witness for `registry_invariant_of_unset_total_price`: appending the single
candidate `(name := "widget", price := 9.99)` with `tax` and `total_price`
unset leaves the stored record with `total_price` unset. -/
theorem registry_invariant_witness :
    (⟨"widget", none, 9.99, none, none⟩ : Item).total_price = none :=
  (registry_invariant_of_unset_total_price [⟨"widget", none, 9.99, none, none⟩]
    (by intro c hc; simp at hc; rw [hc])
    ⟨"widget", none, 9.99, none, none⟩
    (by simp [runCreates, create_item, processItem, initialState])).2 rfl

/-- C1 (counterexample): the request body accepts a `total_price` field, and
`create_item` leaves it untouched when `tax` is unset; appending the candidate
`(name := "x", price := 1, total_price := 99)` stores a record whose `tax` is
unset but whose `total_price` is set, so the claimed registry invariant fails. -/
theorem stored_record_tax_unset_total_price_set :
    (create_item ⟨"x", none, 1, none, some 99⟩ initialState).1.items
      = [⟨"x", none, 1, none, some 99⟩] ∧
    ¬ ((⟨"x", none, 1, none, some 99⟩ : Item).tax = none →
        (⟨"x", none, 1, none, some 99⟩ : Item).total_price = none) := by
  constructor
  · simp [create_item, processItem, initialState]
  · intro h
    simpa using h rfl

/-- C2: when the candidate's `tax` is set, `create_item` computes
`total_price = price + tax` on the candidate and appends the resulting record
at the end of the stored sequence, so the stored `total_price` equals
`price + tax` exactly. -/
theorem create_item_tax_set_total (st : AppState) (it : Item) (t : ℚ)
    (h : it.tax = some t) :
    (create_item it st).1.items
      = st.items ++ [⟨it.name, it.description, it.price, it.tax, some (it.price + t)⟩] := by
  simp [create_item, processItem, h]

/-- Witness for `create_item_tax_set_total`: appending
`(name := "gadget", price := 5, tax := 0.5)` stores `total_price = 5 + 0.5`. -/
theorem create_item_tax_set_total_witness :
    (create_item ⟨"gadget", none, 5, some 0.5, none⟩ initialState).1.items
      = initialState.items ++ [⟨"gadget", none, 5, some 0.5, some (5 + 0.5)⟩] :=
  create_item_tax_set_total initialState ⟨"gadget", none, 5, some 0.5, none⟩ 0.5 rfl

/-- C6: `read_items_full` returns the full stored sequence in insertion order
with no state change, and appends are order-preserving: after appending `a`
then `b`, the listing is the old sequence followed by `a`'s record and then
`b`'s record. -/
theorem list_all_order_preserving (st : AppState) (a b : Item) :
    (read_items_full st).1 = st ∧
    (read_items_full st).2 = st.items ∧
    (read_items_full (create_item b (create_item a st).1).1).2
      = st.items ++ [processItem a, processItem b] := by
  refine ⟨rfl, rfl, ?_⟩
  simp [read_items_full, create_item]

/-- C9: `create_item` is total and always returns the confirmation string; no
error originates in the registry operation itself. -/
theorem create_item_returns_confirmation (st : AppState) (it : Item) :
    (create_item it st).2 = "successfully added a new item" := rfl

/-- C10: the request body accepts a `total_price` field; `create_item` stores
the processed candidate at the end of the sequence, where a candidate with
`tax` unset is stored completely unchanged (a client-supplied `total_price`
survives), and a candidate with `tax` set has its `total_price` overwritten
with `price + tax`. -/
theorem create_item_total_price_passthrough (st : AppState) (it : Item) :
    (create_item it st).1.items = st.items ++ [processItem it] ∧
    (it.tax = none → processItem it = it) ∧
    (∀ t, it.tax = some t → (processItem it).total_price = some (it.price + t)) := by
  refine ⟨rfl, ?_, ?_⟩
  · intro h
    simp [processItem, h]
  · intro t ht
    simp [processItem, ht]

/-- Witness for `create_item_total_price_passthrough`: a candidate with `tax`
unset and `total_price = 99` is stored unchanged, and a candidate with
`tax = 0.5` gets `total_price = 5 + 0.5`. -/
theorem create_item_total_price_passthrough_witness :
    (create_item ⟨"y", none, 1, none, some 99⟩ initialState).1.items
      = initialState.items ++ [processItem ⟨"y", none, 1, none, some 99⟩] ∧
    processItem (⟨"y", none, 1, none, some 99⟩ : Item) = ⟨"y", none, 1, none, some 99⟩ ∧
    (processItem (⟨"g", none, 5, some 0.5, none⟩ : Item)).total_price = some (5 + 0.5) :=
  ⟨(create_item_total_price_passthrough initialState ⟨"y", none, 1, none, some 99⟩).1,
   (create_item_total_price_passthrough initialState ⟨"y", none, 1, none, some 99⟩).2.1 rfl,
   (create_item_total_price_passthrough initialState ⟨"g", none, 5, some 0.5, none⟩).2.2 0.5 rfl⟩

/-- C3: on a record whose `tax` is unset, the `itemsMinusDescription` policy
(exclude `description`, drop null values) omits both the `description` and the
`tax` field and keeps the remaining set fields — `name`, `price`, and
`total_price` exactly when it is set. -/
theorem minimal_projection_drops_description_and_unset_tax (it : Item)
    (h : it.tax = none) :
    serializeItem none ["description"] true it
      = [("name", JVal.s it.name), ("price", JVal.n it.price)]
        ++ (match it.total_price with
            | some v => [("total_price", JVal.n v)]
            | none => []) ∧
    "description" ∉ (serializeItem none ["description"] true it).map Prod.fst ∧
    "tax" ∉ (serializeItem none ["description"] true it).map Prod.fst := by
  cases hd : it.description <;> cases htp : it.total_price <;>
    refine ⟨?_, ?_, ?_⟩ <;>
    simp [serializeItem, itemFields, keepField, optStr, optNum, h, hd, htp]

/-- Witness for `minimal_projection_drops_description_and_unset_tax` on the
record `(name := "widget", description := "d", price := 2, total_price := 3)`
with `tax` unset. -/
theorem minimal_projection_witness :
    serializeItem none ["description"] true (⟨"widget", some "d", 2, none, some 3⟩ : Item)
      = [("name", JVal.s "widget"), ("price", JVal.n 2)]
        ++ [("total_price", JVal.n 3)] :=
  (minimal_projection_drops_description_and_unset_tax
    ⟨"widget", some "d", 2, none, some 3⟩ rfl).1

/-- C4: the `namePrice` inclusion policy keeps exactly the `name` and `price`
fields of every stored record, omitting `description`, `tax` and
`total_price` from the output whatever their values. -/
theorem namePrice_projection_keeps_only_name_price (st : AppState) :
    (namePrice st).2
      = st.items.map (fun r => [("name", JVal.s r.name), ("price", JVal.n r.price)]) := by
  show st.items.map (serializeItem (some ["price", "name"]) [] false)
      = st.items.map (fun r => [("name", JVal.s r.name), ("price", JVal.n r.price)])
  apply List.map_congr_left
  intro it _
  rfl

/-- C8: projection endpoints do not mutate the stored records: for every
policy, `list_projected` (and in particular `namePrice` and
`itemsMinusDescription`) returns the state, and hence every stored record,
unchanged; only a fresh output value is produced. -/
theorem projection_no_mutation (st : AppState) (inc : Option (List String))
    (exc : List String) (dn : Bool) :
    (list_projected inc exc dn st).1 = st ∧
    (list_projected inc exc dn st).1.items = st.items ∧
    (namePrice st).1 = st ∧
    (itemsMinusDescription st).1 = st :=
  ⟨rfl, rfl, rfl, rfl⟩

end FastapiMain
